import Mathlib

/-!
# go-yelp: `SearchOptions.GetParameters`

A shallow embedding of `yelp/searchOptions.go`.

* A Go `map[string]string` is an association list with pairwise distinct keys
  (`AList`), wrapped in `Option`: `none` is the nil map, `some m` an allocated map.
* A Go `error` value is identified with the text its `Error()` method returns;
  `Option GoError` is an `error` that may be nil.
* The five option-group types are not declared in `searchOptions.go`; they are type
  parameters, each with an `OptionProvider` instance (the Go interface).
* `fmt.Printf` appends to an explicit standard-output state; the calls made to the
  groups' `GetParameters` are recorded in a call log.
* Go leaves the iteration order of `range` over a map unspecified; the order is an
  explicit parameter (`RangeOrder`) and every theorem holds for all orders.
-/

namespace Yelp

/-- The entries of an allocated Go `map[string]string`. -/
abbrev Entries := AList (fun _ : String => String)

/-- A Go `map[string]string` value: `none` is the nil map. -/
abbrev GoMap := Option Entries

/-- A Go `error` value, identified with its message. -/
structure GoError where
  text : String
deriving DecidableEq, Repr

/-- Go `errors.New`. -/
def errorsNew (text : String) : GoError := ⟨text⟩

/-- Go `m[k]` with the comma-ok idiom: `none` when the key is missing (a nil map has
no key). -/
def GoMap.get (m : GoMap) (k : String) : Option String :=
  match m with
  | none => none
  | some es => es.lookup k

/-- The interface `OptionProvider`: `GetParameters() (params map[string]string, err error)`. -/
class OptionProvider (α : Type) where
  GetParameters : α → GoMap × Option GoError

/-- The struct `SearchOptions`: five pointer fields, `none` being the nil pointer. -/
structure SearchOptions (Gen Loc Lcn Crd Bnd : Type) where
  GeneralOptions : Option Gen
  LocaleOptions : Option Loc
  LocationOptions : Option Lcn
  CoordinateOptions : Option Crd
  BoundOptions : Option Bnd

/-- The order in which a `range` statement visits the entries of a map: for the map
held by field `i`, some rearrangement of its entries. -/
structure RangeOrder where
  visit : Nat → List (Sigma fun _ : String => String) → List (Sigma fun _ : String => String)
  perm : ∀ i l, (visit i l).Perm l

/-- The range order that visits entries in their stored order. -/
def RangeOrder.stored : RangeOrder := ⟨fun _ l => l, fun _ _ => List.Perm.refl _⟩

/-- The range order that visits entries in the reverse of their stored order. -/
def RangeOrder.reversed : RangeOrder := ⟨fun _ l => l.reverse, fun _ l => List.reverse_perm l⟩

/-- What a call of `SearchOptions.GetParameters` yields: the two return values, the
lines written to standard output (initial contents included), and the indices of the
fields whose `GetParameters` was invoked, in order of invocation. -/
structure Outcome where
  params : GoMap
  err : Option GoError
  stdout : List String
  calls : List Nat

/-- The value of `reflect.Value.NumField` for `SearchOptions`. -/
def NumField : Nat := 5

variable {Gen Loc Lcn Crd Bnd : Type}
variable [OptionProvider Gen] [OptionProvider Loc] [OptionProvider Lcn]
variable [OptionProvider Crd] [OptionProvider Bnd]

/-- The expression `val.Field(i)` guarded by `!IsNil()` and asserted to `OptionProvider`,
reduced to the one thing the interface offers: the result of its `GetParameters`.
`none` when the pointer in field `i` is nil. Fields are numbered in declaration order. -/
def Field (o : SearchOptions Gen Loc Lcn Crd Bnd) (i : Nat) :
    Option (Unit → GoMap × Option GoError) :=
  match i with
  | 0 => o.GeneralOptions.map fun g _ => OptionProvider.GetParameters g
  | 1 => o.LocaleOptions.map fun g _ => OptionProvider.GetParameters g
  | 2 => o.LocationOptions.map fun g _ => OptionProvider.GetParameters g
  | 3 => o.CoordinateOptions.map fun g _ => OptionProvider.GetParameters g
  | 4 => o.BoundOptions.map fun g _ => OptionProvider.GetParameters g
  | _ => none

/-- The counter `locOptionsCnt` after the three nil tests. -/
def locOptionsCnt (o : SearchOptions Gen Loc Lcn Crd Bnd) : Nat :=
  let locOptionsCnt := 0
  let locOptionsCnt := if o.LocationOptions.isSome then locOptionsCnt + 1 else locOptionsCnt
  let locOptionsCnt := if o.CoordinateOptions.isSome then locOptionsCnt + 1 else locOptionsCnt
  let locOptionsCnt := if o.BoundOptions.isSome then locOptionsCnt + 1 else locOptionsCnt
  locOptionsCnt

/-- The error returned when `locOptionsCnt == 0`. -/
def errNoLocation : GoError :=
  errorsNew "A single location search options type (Location, Coordinate, Bound) must be used."

/-- The error returned when `locOptionsCnt > 1`. -/
def errMultipleLocations : GoError :=
  errorsNew
    "Only a single location search options type (Location, Coordinate, Bound) can be used at a time."

/-- The line written by
`fmt.Printf("There are %v location options defined\n", locOptionsCnt)`. -/
def diagnostic (locOptionsCnt : Nat) : String :=
  "There are " ++ toString locOptionsCnt ++ " location options defined\n"

/-- The inner loop `for k, v := range fieldParams { params[k] = v }` for the map
returned by field `i`; ranging over a nil map runs no iteration. -/
def mergeField (ρ : RangeOrder) (i : Nat) (fieldParams : GoMap) (params : Entries) : Entries :=
  match fieldParams with
  | none => params
  | some es => (ρ.visit i es.entries).foldl (fun params e => params.insert e.1 e.2) params

/-- The loop `for i := 0; i < val.NumField(); i++` from index `i` on, `fuel` bounding
the number of iterations still to run. -/
def fieldLoop (ρ : RangeOrder) (o : SearchOptions Gen Loc Lcn Crd Bnd) :
    Nat → Nat → Entries → List String → List Nat → Outcome
  | 0, _, params, out, calls => ⟨some params, none, out, calls⟩
  | fuel + 1, i, params, out, calls =>
    if i < NumField then
      match Field o i with
      | none => fieldLoop ρ o fuel (i + 1) params out calls
      | some p =>
        match p () with
        | (_, some err) => ⟨some params, some err, out, calls ++ [i]⟩
        | (fieldParams, none) =>
          fieldLoop ρ o fuel (i + 1) (mergeField ρ i fieldParams params) out (calls ++ [i])
    else ⟨some params, none, out, calls⟩

/-- The method `(o *SearchOptions) GetParameters`, run with standard output `out`. -/
def GetParameters (ρ : RangeOrder) (o : SearchOptions Gen Loc Lcn Crd Bnd)
    (out : List String) : Outcome :=
  if locOptionsCnt o = 0 then
    ⟨none, some errNoLocation, out, []⟩
  else if locOptionsCnt o > 1 then
    ⟨none, some errMultipleLocations, out, []⟩
  else
    fieldLoop ρ o NumField 0 ∅ (out ++ [diagnostic (locOptionsCnt o)]) []

/-- An option group whose `GetParameters` returns the result stored in it. -/
structure FixedOptions where
  params : GoMap
  err : Option GoError

instance : OptionProvider FixedOptions := ⟨fun g => (g.params, g.err)⟩

/-- The allocated map holding the given pairs, written in order (a later pair replaces
an earlier one with the same key). -/
def entriesOf (l : List (String × String)) : Entries :=
  l.foldl (fun m e => m.insert e.1 e.2) ∅

/-! ## Vocabulary for the statements -/

/-- The number of non-nil pointers among `LocationOptions`, `CoordinateOptions` and
`BoundOptions`. -/
def nonNilLocationGroups (o : SearchOptions Gen Loc Lcn Crd Bnd) : Nat :=
  [o.LocationOptions.isSome, o.CoordinateOptions.isSome, o.BoundOptions.isSome].count true

/-- Field `i` holds a non-nil pointer. -/
def present (o : SearchOptions Gen Loc Lcn Crd Bnd) (i : Nat) : Bool :=
  (Field o i).isSome

/-- The map that the group in field `i` returns from its `GetParameters`; the nil map
for a nil pointer. -/
def contribution (o : SearchOptions Gen Loc Lcn Crd Bnd) (i : Nat) : GoMap :=
  match Field o i with
  | none => none
  | some p => (p ()).1

/-- The error that the group in field `i` returns from its `GetParameters`; nil for a
nil pointer. -/
def groupErr (o : SearchOptions Gen Loc Lcn Crd Bnd) (i : Nat) : Option GoError :=
  match Field o i with
  | none => none
  | some p => (p ()).2

/-- The map `m` is `base` overwritten by the maps of the fields `lo ≤ j < hi`, a later
field winning: a key none of them holds keeps its value (or absence) in `base`, and a
key some of them hold has the value given by the last that holds it. -/
def MergedOver (o : SearchOptions Gen Loc Lcn Crd Bnd) (lo hi : Nat) (base m : Entries) : Prop :=
  ∀ k : String,
    ((∀ j, lo ≤ j → j < hi → (contribution o j).get k = none) → m.lookup k = base.lookup k) ∧
    (∀ j v, lo ≤ j → j < hi → (contribution o j).get k = some v →
      (∀ j', j < j' → j' < hi → (contribution o j').get k = none) → m.lookup k = some v)

/-! ## The coordinate group -/

/-- Modelled from the spec: what the spec leaves to the nullable-scalar type and to the
upstream API, neither of which is declared in `searchOptions.go`: the string
representation of a scalar value, and the designated keys of the three fields of
`CoordinateOptions` that follow latitude and longitude. -/
class CoordinateFormat (T : Type) where
  format : T → String
  thirdKey : String
  fourthKey : String
  fifthKey : String

/-- Modelled from the spec: the struct `CoordinateOptions`, declared outside
`searchOptions.go`: five nullable scalars ("holds a value or no-value"), in the order
of the literal in `TestCoordinateOptions`, the first two being latitude and longitude. -/
structure CoordinateOptions (T : Type) where
  Latitude : Option T
  Longitude : Option T
  Third : Option T
  Fourth : Option T
  Fifth : Option T

/-- Modelled from the spec: a nullable field's part in a group's `GetParameters`: "absent
→ field omitted from the parameter map entirely; present → field emitted as its string
representation under its designated key". -/
def emitNullable {T : Type} [CoordinateFormat T] (key : String) (field : Option T)
    (params : Entries) : Entries :=
  match field with
  | none => params
  | some v => params.insert key (CoordinateFormat.format v)

/-- Modelled from the spec: the method `CoordinateOptions.GetParameters`, declared
outside `searchOptions.go`: each field that holds a value contributes its pair, under
the keys `latitude` and `longitude` for the first two; the group never fails. -/
def CoordinateOptions.GetParameters {T : Type} [CoordinateFormat T] (o : CoordinateOptions T) :
    GoMap × Option GoError :=
  let params : Entries := ∅
  let params := emitNullable "latitude" o.Latitude params
  let params := emitNullable "longitude" o.Longitude params
  let params := emitNullable (CoordinateFormat.thirdKey T) o.Third params
  let params := emitNullable (CoordinateFormat.fourthKey T) o.Fourth params
  let params := emitNullable (CoordinateFormat.fifthKey T) o.Fifth params
  (some params, none)

instance {T : Type} [CoordinateFormat T] : OptionProvider (CoordinateOptions T) :=
  ⟨CoordinateOptions.GetParameters⟩

/-- Modelled from the spec: a stand-in for the `float64` values of the test, decimal
numbers with one fractional digit. -/
structure Decimal1 where
  negative : Bool
  units : Nat
  tenths : Nat

/-- Modelled from the spec: the string representation of a `Decimal1`, as the spec
writes the test's values: `37.9`, `-122.5`. -/
def Decimal1.format (d : Decimal1) : String :=
  (if d.negative then "-" else "") ++ toString d.units ++ "." ++ toString d.tenths

instance : CoordinateFormat Decimal1 :=
  ⟨Decimal1.format, "accuracy", "altitude", "altitude_accuracy"⟩

/-- The options built in `TestCoordinateOptions`: only `CoordinateOptions`, holding
`null.FloatFrom(37.9)`, `null.FloatFrom(-122.5)` and three times `null.FloatFromPtr(nil)`. -/
def testCoordinateOptions :
    SearchOptions FixedOptions FixedOptions FixedOptions (CoordinateOptions Decimal1)
      FixedOptions :=
  ⟨none, none, none, some ⟨some ⟨false, 37, 9⟩, some ⟨true, 122, 5⟩, none, none, none⟩, none⟩

/-! ## Sample inputs -/


/-- A `SearchOptions` whose five groups all return stored results. -/
abbrev Sample := SearchOptions FixedOptions FixedOptions FixedOptions FixedOptions FixedOptions

/-- A group that returns the given pairs in an allocated map and a nil error. -/
def okGroup (l : List (String × String)) : FixedOptions := ⟨some (entriesOf l), none⟩

/-- A group that returns a nil map and the error with the given message. -/
def failingGroup (text : String) : FixedOptions := ⟨none, some (errorsNew text)⟩

/-- A populated `GeneralOptions`. -/
def sampleGeneral : Option FixedOptions := some (okGroup [("term", "food")])

/-- A populated `LocaleOptions`. -/
def sampleLocale : Option FixedOptions := some (okGroup [("cc", "US")])

/-- A populated `LocationOptions`. -/
def sampleLocation : Option FixedOptions := some (okGroup [("location", "SF")])

/-- No option group set at all. -/
def noOptions : Sample := ⟨none, none, none, none, none⟩

/-- Only `CoordinateOptions` set. -/
def coordinateOnly : Sample :=
  ⟨none, none, none, some (okGroup [("ll", "37.9,-122.5")]), none⟩

/-- Both `LocationOptions` and `CoordinateOptions` set, with a populated `GeneralOptions`. -/
def twoLocations : Sample :=
  ⟨some (okGroup [("term", "food")]), none, some (okGroup [("location", "SF")]),
    some (okGroup [("ll", "37.9,-122.5")]), none⟩

/-- Both `CoordinateOptions` and `BoundOptions` set, with a failing `GeneralOptions` and a
populated `LocaleOptions`. -/
def coordinateAndBound : Sample :=
  ⟨some (failingGroup "bad filter"), some (okGroup [("cc", "US"), ("lang", "en")]), none,
    some (okGroup [("ll", "1,2")]), some (okGroup [("bounds", "1,2|3,4")])⟩

/-- The groups `GeneralOptions` and `CoordinateOptions` populated, with no key in common. -/
def generalAndCoordinate : Sample :=
  ⟨some (okGroup [("term", "food")]), none, none, some (okGroup [("ll", "37.9,-122.5")]), none⟩

/-- Every group but `BoundOptions` populated, the key `term` being written by
`GeneralOptions`, by `LocaleOptions` and by `LocationOptions`. -/
def collidingGroups : Sample :=
  ⟨some (okGroup [("term", "food"), ("limit", "3")]), some (okGroup [("term", "bars")]),
    some (okGroup [("location", "SF"), ("term", "cafes")]), none, none⟩

/-- The groups `LocaleOptions` and `LocationOptions` both failing, after a populated
`GeneralOptions`. -/
def twoFailingGroups : Sample :=
  ⟨some (okGroup [("term", "food")]), some (failingGroup "bad locale"),
    some (failingGroup "bad location"), none, none⟩

/-- After two populated groups that both write `term`, a `LocationOptions` that fails
while also returning a populated map. -/
def failingAfterTwo : Sample :=
  ⟨some (okGroup [("term", "food"), ("limit", "3")]), some (okGroup [("term", "bars")]),
    some ⟨some (entriesOf [("location", "SF"), ("term", "cafes")]), some (errorsNew "bad location")⟩,
    none, none⟩

/-- Only `BoundOptions` set, to a group that returns the nil map and a nil error. -/
def boundOnlyNilMap : Sample := ⟨none, none, none, none, some ⟨none, none⟩⟩

/-! ## Lemmas on the embedding -/

omit [OptionProvider Gen] [OptionProvider Loc] [OptionProvider Lcn] [OptionProvider Crd]
  [OptionProvider Bnd] in
theorem locOptionsCnt_eq (o : SearchOptions Gen Loc Lcn Crd Bnd) :
    locOptionsCnt o = nonNilLocationGroups o := by
  unfold locOptionsCnt nonNilLocationGroups
  cases o.LocationOptions <;> cases o.CoordinateOptions <;> cases o.BoundOptions <;> rfl

theorem lookup_insert_ite (m : Entries) (a b k : String) :
    (m.insert a b).lookup k = if k = a then some b else m.lookup k := by
  by_cases h : k = a
  · subst h
    simp
  · simp [h, AList.lookup_insert_ne h]

theorem lookup_foldl_insert (k : String) :
    ∀ (l : List (Sigma fun _ : String => String)) (params : Entries), l.NodupKeys →
      (l.foldl (fun params e => params.insert e.1 e.2) params).lookup k =
        match l.dlookup k with
        | some v => some v
        | none => params.lookup k := by
  intro l
  induction l with
  | nil => intro params _; simp
  | cons e l ih =>
    intro params nd
    obtain ⟨hnot, nd'⟩ := List.nodupKeys_cons.mp nd
    rw [List.foldl_cons, ih _ nd']
    by_cases hk : k = e.1
    · subst hk
      have hnone : l.dlookup e.1 = none := List.dlookup_eq_none.mpr hnot
      rw [hnone]
      obtain ⟨a, b⟩ := e
      simp [List.dlookup_cons_eq]
    · rw [List.dlookup_cons_ne l e hk, AList.lookup_insert_ne hk]

/-- After the inner `range` loop, a key holds the value the field's map gives it, or
else the value it had before; the order of the visit is irrelevant. -/
theorem mergeField_lookup (ρ : RangeOrder) (i : Nat) (fieldParams : GoMap) (params : Entries)
    (k : String) :
    (mergeField ρ i fieldParams params).lookup k =
      match fieldParams.get k with
      | some v => some v
      | none => params.lookup k := by
  cases fieldParams with
  | none => simp [mergeField, GoMap.get]
  | some es =>
    have nd : (ρ.visit i es.entries).NodupKeys :=
      (List.perm_nodupKeys (ρ.perm i es.entries)).mpr es.nodupKeys
    simp only [mergeField, GoMap.get]
    rw [lookup_foldl_insert k _ params nd,
      List.perm_dlookup k nd es.nodupKeys (ρ.perm i es.entries)]
    rfl

theorem mergedOver_refl (o : SearchOptions Gen Loc Lcn Crd Bnd) (i : Nat) (base : Entries) :
    MergedOver o i i base base := by
  intro k
  refine ⟨fun _ => rfl, ?_⟩
  intro j v h₁ h₂
  omega

theorem mergedOver_step (ρ : RangeOrder) (o : SearchOptions Gen Loc Lcn Crd Bnd) (i hi : Nat)
    (base m : Entries) (hlt : i < hi)
    (h : MergedOver o (i + 1) hi (mergeField ρ i (contribution o i) base) m) :
    MergedOver o i hi base m := by
  intro k
  obtain ⟨hA, hB⟩ := h k
  have hm := mergeField_lookup ρ i (contribution o i) base k
  constructor
  · intro hnone
    rw [hA (fun j h₁ h₂ => hnone j (by omega) h₂), hm, hnone i (le_refl i) hlt]
  · intro j v h₁ h₂ hv hlater
    rcases Nat.eq_or_lt_of_le h₁ with heq | hgt
    · subst heq
      rw [hA (fun j' h₁' h₂' => hlater j' (by omega) h₂'), hm, hv]
    · exact hB j v hgt h₂ hv hlater

/-- The loop over the fields `i ≤ j < i + n`, none of whose groups fails: it reaches
index `i + n` having invoked exactly the non-nil fields passed, with their maps merged
into `params`. -/
theorem fieldLoop_prefix (ρ : RangeOrder) (o : SearchOptions Gen Loc Lcn Crd Bnd)
    (out : List String) :
    ∀ (n i : Nat) (params : Entries) (calls : List Nat) (fuel : Nat),
      i + n ≤ NumField → NumField ≤ i + fuel →
      (∀ j, i ≤ j → j < i + n → groupErr o j = none) →
      ∃ params', fieldLoop ρ o fuel i params out calls =
          fieldLoop ρ o (fuel - n) (i + n) params' out
            (calls ++ (List.range' i n).filter (present o)) ∧
        MergedOver o i (i + n) params params' := by
  intro n
  induction n with
  | zero =>
    intro i params calls fuel _ _ _
    exact ⟨params, by simp, mergedOver_refl o i params⟩
  | succ n ih =>
    intro i params calls fuel h₁ h₂ herr
    obtain ⟨f, rfl⟩ : ∃ f, fuel = f + 1 := ⟨fuel - 1, by omega⟩
    have hi : i < NumField := by omega
    have hei := herr i (le_refl i) (by omega)
    have hrest : ∀ j, i + 1 ≤ j → j < i + 1 + n → groupErr o j = none :=
      fun j a b => herr j (by omega) (by omega)
    have hidx : i + 1 + n = i + (n + 1) := by omega
    have hfuel : f + 1 - (n + 1) = f - n := by omega
    rw [fieldLoop, if_pos hi, List.range'_succ, List.filter_cons, hfuel]
    cases hF : Field o i with
    | none =>
      obtain ⟨params', hrun, hm⟩ := ih (i + 1) params calls f (by omega) (by omega) hrest
      refine ⟨params', ?_, ?_⟩
      · simp only [present, hF, Option.isSome_none, Bool.false_eq_true, if_false]
        rw [hrun, hidx]
      · apply mergedOver_step ρ o i (i + (n + 1)) params params' (by omega)
        simpa [contribution, hF, mergeField, hidx] using hm
    | some p =>
      have hp2 : (p ()).2 = none := by simpa [groupErr, hF] using hei
      obtain ⟨params', hrun, hm⟩ :=
        ih (i + 1) (mergeField ρ i (p ()).1 params) (calls ++ [i]) f (by omega) (by omega) hrest
      refine ⟨params', ?_, ?_⟩
      · simp only [present, hF, Option.isSome_some, if_true]
        rcases hpe : p () with ⟨fp, e⟩
        rw [hpe] at hp2 hrun
        simp only at hp2
        subst hp2
        simp only
        rw [hrun, hidx, List.append_assoc]
        rfl
      · apply mergedOver_step ρ o i (i + (n + 1)) params params' (by omega)
        simpa [contribution, hF, hidx] using hm

/-- The fuel given to the loop never cuts it short: once it covers the fields still to
visit, more fuel changes nothing. -/
theorem fieldLoop_fuel_succ (ρ : RangeOrder) (o : SearchOptions Gen Loc Lcn Crd Bnd)
    (out : List String) :
    ∀ (fuel i : Nat) (params : Entries) (calls : List Nat), NumField ≤ i + fuel →
      fieldLoop ρ o (fuel + 1) i params out calls = fieldLoop ρ o fuel i params out calls := by
  intro fuel
  induction fuel with
  | zero =>
    intro i params calls h
    have hi : ¬ i < NumField := by omega
    simp [fieldLoop, hi]
  | succ f ih =>
    intro i params calls h
    rw [fieldLoop]
    conv_rhs => rw [fieldLoop]
    by_cases hi : i < NumField
    · simp only [if_pos hi]
      cases Field o i with
      | none => exact ih (i + 1) params calls (by omega)
      | some p =>
        rcases hpe : p () with ⟨fp, _ | e⟩
        · simp only [hpe]
          exact ih (i + 1) _ _ (by omega)
        · simp only [hpe]
    · simp only [if_neg hi]

/-- The loop run from the start when no group fails. -/
theorem fieldLoop_all_ok (ρ : RangeOrder) (o : SearchOptions Gen Loc Lcn Crd Bnd)
    (out : List String) (h : ∀ j, j < NumField → groupErr o j = none) :
    ∃ params', fieldLoop ρ o NumField 0 ∅ out [] =
        ⟨some params', none, out, (List.range NumField).filter (present o)⟩ ∧
      MergedOver o 0 NumField ∅ params' := by
  obtain ⟨params', hrun, hm⟩ := fieldLoop_prefix ρ o out NumField 0 ∅ [] NumField
    (by omega) (by omega) (fun j _ hj => h j (by omega))
  refine ⟨params', ?_, by simpa using hm⟩
  rw [hrun, List.range_eq_range']
  simp [fieldLoop]

/-- The loop run from the start when field `j` is the first whose group fails. -/
theorem fieldLoop_first_failure (ρ : RangeOrder) (o : SearchOptions Gen Loc Lcn Crd Bnd)
    (out : List String) (j : Nat) (e : GoError) (hj : j < NumField)
    (he : groupErr o j = some e) (hbefore : ∀ j', j' < j → groupErr o j' = none) :
    ∃ params', fieldLoop ρ o NumField 0 ∅ out [] =
        ⟨some params', some e, out, (List.range (j + 1)).filter (present o)⟩ ∧
      MergedOver o 0 j ∅ params' := by
  obtain ⟨params', hrun, hm⟩ := fieldLoop_prefix ρ o out j 0 ∅ [] NumField
    (by omega) (by omega) (fun j' _ hj' => hbefore j' (by omega))
  refine ⟨params', ?_, by simpa using hm⟩
  obtain ⟨f, hf⟩ : ∃ f, NumField - j = f + 1 := ⟨NumField - j - 1, by omega⟩
  rw [hrun, hf, Nat.zero_add, fieldLoop, if_pos hj]
  cases hF : Field o j with
  | none => simp [groupErr, hF] at he
  | some p =>
    have hp2 : (p ()).2 = some e := by simpa [groupErr, hF] using he
    rcases hpe : p () with ⟨fp, e'⟩
    rw [hpe] at hp2
    simp only at hp2
    subst hp2
    simp [List.range_eq_range', List.range'_concat, List.filter_append, present, hF, hpe]

/-- Either no group fails or there is a first field whose group fails. -/
theorem first_failure_cases (o : SearchOptions Gen Loc Lcn Crd Bnd) :
    (∀ j, j < NumField → groupErr o j = none) ∨
    ∃ j e, j < NumField ∧ groupErr o j = some e ∧ ∀ j', j' < j → groupErr o j' = none := by
  by_cases h : ∃ j, groupErr o j ≠ none
  · right
    classical
    have hmin : ∀ j', j' < Nat.find h → groupErr o j' = none :=
      fun j' hj' => by simpa using Nat.find_min h hj'
    have hspec := Nat.find_spec h
    obtain ⟨e, he⟩ := Option.ne_none_iff_exists'.mp hspec
    refine ⟨Nat.find h, e, ?_, he, hmin⟩
    by_contra hge
    have : Field o (Nat.find h) = none := by
      obtain ⟨f, hf⟩ : ∃ f, Nat.find h = f + 5 := ⟨Nat.find h - 5, by unfold NumField at hge; omega⟩
      rw [hf]
      rfl
    simp [groupErr, this] at he
  · left
    intro j _
    by_contra hne
    exact h ⟨j, hne⟩

/-- With exactly one location group set the method runs the loop, after writing its
diagnostic line. -/
theorem GetParameters_of_one (ρ : RangeOrder) (o : SearchOptions Gen Loc Lcn Crd Bnd)
    (out : List String) (h : nonNilLocationGroups o = 1) :
    GetParameters ρ o out = fieldLoop ρ o NumField 0 ∅ (out ++ [diagnostic 1]) [] := by
  rw [← locOptionsCnt_eq] at h
  simp [GetParameters, h]

theorem GetParameters_of_zero (ρ : RangeOrder) (o : SearchOptions Gen Loc Lcn Crd Bnd)
    (out : List String) (h : nonNilLocationGroups o = 0) :
    GetParameters ρ o out = ⟨none, some errNoLocation, out, []⟩ := by
  rw [← locOptionsCnt_eq] at h
  simp [GetParameters, h]

theorem GetParameters_of_many (ρ : RangeOrder) (o : SearchOptions Gen Loc Lcn Crd Bnd)
    (out : List String) (h : 1 < nonNilLocationGroups o) :
    GetParameters ρ o out = ⟨none, some errMultipleLocations, out, []⟩ := by
  rw [← locOptionsCnt_eq] at h
  have h0 : locOptionsCnt o ≠ 0 := by omega
  simp [GetParameters, h, h0]

/-- Among the indices `lo ≤ j < lo + n` satisfying `P`, if there is one there is a last. -/
theorem exists_last_index (P : Nat → Prop) (lo : Nat) :
    ∀ n, (∃ j, lo ≤ j ∧ j < lo + n ∧ P j) →
      ∃ j, lo ≤ j ∧ j < lo + n ∧ P j ∧ ∀ j', j < j' → j' < lo + n → ¬ P j' := by
  intro n
  induction n with
  | zero => rintro ⟨j, h₁, h₂, _⟩; omega
  | succ n ih =>
    rintro ⟨j, h₁, h₂, hP⟩
    by_cases hlast : P (lo + n)
    · refine ⟨lo + n, by omega, by omega, hlast, ?_⟩
      intro j' a b
      omega
    · have hj : j < lo + n := by
        rcases Nat.lt_or_ge j (lo + n) with h | h
        · exact h
        · have : j = lo + n := by omega
          subst this
          exact absurd hP hlast
      obtain ⟨j₀, a, b, c, d⟩ := ih ⟨j, h₁, hj, hP⟩
      refine ⟨j₀, a, by omega, c, ?_⟩
      intro j' h₃ h₄
      rcases Nat.lt_or_ge j' (lo + n) with h | h
      · exact d j' h₃ h
      · have : j' = lo + n := by omega
        subst this
        exact hlast

/-- Two merges over the same range of fields, from bases and contributions that agree at
a key, agree at that key. -/
theorem mergedOver_congr (o₁ o₂ : SearchOptions Gen Loc Lcn Crd Bnd) (lo hi : Nat)
    (base₁ base₂ m₁ m₂ : Entries) (k : String)
    (h₁ : MergedOver o₁ lo hi base₁ m₁) (h₂ : MergedOver o₂ lo hi base₂ m₂)
    (hbase : base₁.lookup k = base₂.lookup k)
    (hc : ∀ j, lo ≤ j → j < hi → (contribution o₁ j).get k = (contribution o₂ j).get k) :
    m₁.lookup k = m₂.lookup k := by
  by_cases hex : ∃ j, lo ≤ j ∧ j < lo + (hi - lo) ∧ (contribution o₁ j).get k ≠ none
  · obtain ⟨j, a, b, c, d⟩ := exists_last_index _ lo (hi - lo) hex
    obtain ⟨v, hv⟩ := Option.ne_none_iff_exists'.mp c
    have hlater : ∀ j', j < j' → j' < hi → (contribution o₁ j').get k = none :=
      fun j' x y => by simpa using d j' x (by omega)
    rw [(h₁ k).2 j v a (by omega) hv hlater,
      (h₂ k).2 j v a (by omega) (by rw [← hc j a (by omega)]; exact hv)
        (fun j' x y => by rw [← hc j' (by omega) y]; exact hlater j' x y)]
  · have hnone : ∀ j, lo ≤ j → j < hi → (contribution o₁ j).get k = none := by
      intro j a b
      by_contra hne
      exact hex ⟨j, a, by omega, hne⟩
    rw [(h₁ k).1 hnone, (h₂ k).1 (fun j a b => by rw [← hc j a b]; exact hnone j a b), hbase]

/-- What a merge over a range of fields holds at a key: it holds the key exactly when
the base or one of the fields does. -/
theorem mergedOver_lookup_ne_none (o : SearchOptions Gen Loc Lcn Crd Bnd) (lo hi : Nat)
    (base m : Entries) (k : String) (h : MergedOver o lo hi base m) :
    m.lookup k ≠ none ↔
      base.lookup k ≠ none ∨ ∃ j, lo ≤ j ∧ j < hi ∧ (contribution o j).get k ≠ none := by
  by_cases hex : ∃ j, lo ≤ j ∧ j < lo + (hi - lo) ∧ (contribution o j).get k ≠ none
  · obtain ⟨j, a, b, c, d⟩ := exists_last_index _ lo (hi - lo) hex
    obtain ⟨v, hv⟩ := Option.ne_none_iff_exists'.mp c
    have hlater : ∀ j', j < j' → j' < hi → (contribution o j').get k = none :=
      fun j' x y => by simpa using d j' x (by omega)
    rw [(h k).2 j v a (by omega) hv hlater]
    simp only [ne_eq, reduceCtorEq, not_false_eq_true, true_iff]
    exact Or.inr ⟨j, a, by omega, c⟩
  · have hnone : ∀ j, lo ≤ j → j < hi → (contribution o j).get k = none := by
      intro j a b
      by_contra hne
      exact hex ⟨j, a, by omega, hne⟩
    rw [(h k).1 hnone]
    constructor
    · exact Or.inl
    · rintro (hb | ⟨j, a, b, c⟩)
      · exact hb
      · exact absurd (hnone j a b) c

/-- A call that returns a nil error passed validation, met no failing group, invoked
every non-nil field and returns the merge of all their maps. -/
theorem success_inv (ρ : RangeOrder) (o : SearchOptions Gen Loc Lcn Crd Bnd) (out : List String)
    (hsucc : (GetParameters ρ o out).err = none) :
    nonNilLocationGroups o = 1 ∧ (∀ j, j < NumField → groupErr o j = none) ∧
    ∃ params', GetParameters ρ o out =
        ⟨some params', none, out ++ [diagnostic 1], (List.range NumField).filter (present o)⟩ ∧
      MergedOver o 0 NumField ∅ params' := by
  have hone : nonNilLocationGroups o = 1 := by
    by_contra hne
    rcases Nat.lt_or_ge (nonNilLocationGroups o) 1 with h | h
    · rw [GetParameters_of_zero ρ o out (by omega)] at hsucc
      simp at hsucc
    · rw [GetParameters_of_many ρ o out (by omega)] at hsucc
      simp at hsucc
  have hrun := GetParameters_of_one ρ o out hone
  rcases first_failure_cases o with hok | ⟨j, e, hj, he, hbefore⟩
  · refine ⟨hone, hok, ?_⟩
    obtain ⟨params', hloop, hm⟩ := fieldLoop_all_ok ρ o (out ++ [diagnostic 1]) hok
    exact ⟨params', hrun.trans hloop, hm⟩
  · obtain ⟨params', hloop, _⟩ :=
      fieldLoop_first_failure ρ o (out ++ [diagnostic 1]) j e hj he hbefore
    rw [hrun, hloop] at hsucc
    simp at hsucc

/-- Two calls that pass validation, on options whose groups return the same errors and
whose maps agree at a key, return the same error and agree at that key, whatever the
range orders and the standard outputs. -/
theorem outcome_congr (ρ₁ ρ₂ : RangeOrder) (o₁ o₂ : SearchOptions Gen Loc Lcn Crd Bnd)
    (out₁ out₂ : List String) (k : String)
    (h₁ : nonNilLocationGroups o₁ = 1) (h₂ : nonNilLocationGroups o₂ = 1)
    (herr : ∀ j, j < NumField → groupErr o₁ j = groupErr o₂ j)
    (hc : ∀ j, j < NumField → (contribution o₁ j).get k = (contribution o₂ j).get k) :
    (GetParameters ρ₁ o₁ out₁).err = (GetParameters ρ₂ o₂ out₂).err ∧
    (GetParameters ρ₁ o₁ out₁).params.get k = (GetParameters ρ₂ o₂ out₂).params.get k := by
  rw [GetParameters_of_one ρ₁ o₁ out₁ h₁, GetParameters_of_one ρ₂ o₂ out₂ h₂]
  rcases first_failure_cases o₁ with hok | ⟨j, e, hj, he, hbefore⟩
  · obtain ⟨p₁, hl₁, hm₁⟩ := fieldLoop_all_ok ρ₁ o₁ (out₁ ++ [diagnostic 1]) hok
    obtain ⟨p₂, hl₂, hm₂⟩ := fieldLoop_all_ok ρ₂ o₂ (out₂ ++ [diagnostic 1])
      (fun j hj => by rw [← herr j hj]; exact hok j hj)
    rw [hl₁, hl₂]
    exact ⟨rfl, mergedOver_congr o₁ o₂ 0 NumField ∅ ∅ p₁ p₂ k hm₁ hm₂ rfl (fun j _ hj => hc j hj)⟩
  · obtain ⟨p₁, hl₁, hm₁⟩ :=
      fieldLoop_first_failure ρ₁ o₁ (out₁ ++ [diagnostic 1]) j e hj he hbefore
    obtain ⟨p₂, hl₂, hm₂⟩ :=
      fieldLoop_first_failure ρ₂ o₂ (out₂ ++ [diagnostic 1]) j e hj
        (by rw [← herr j hj]; exact he)
        (fun j' hj' => by rw [← herr j' (by omega)]; exact hbefore j' hj')
    rw [hl₁, hl₂]
    exact ⟨rfl, mergedOver_congr o₁ o₂ 0 j ∅ ∅ p₁ p₂ k hm₁ hm₂ rfl
      (fun j' _ hj' => hc j' (by omega))⟩

/-- A call that passes validation returns an allocated map. -/
theorem params_ne_none_of_one (ρ : RangeOrder) (o : SearchOptions Gen Loc Lcn Crd Bnd)
    (out : List String) (h : nonNilLocationGroups o = 1) :
    (GetParameters ρ o out).params ≠ none := by
  rw [GetParameters_of_one ρ o out h]
  rcases first_failure_cases o with hok | ⟨j, e, hj, he, hbefore⟩
  · obtain ⟨p, hl, _⟩ := fieldLoop_all_ok ρ o (out ++ [diagnostic 1]) hok
    rw [hl]; simp
  · obtain ⟨p, hl, _⟩ := fieldLoop_first_failure ρ o (out ++ [diagnostic 1]) j e hj he hbefore
    rw [hl]; simp

/-- A call that passes validation writes its diagnostic line, with the count 1, once,
whether or not a group fails afterwards. -/
theorem stdout_of_one (ρ : RangeOrder) (o : SearchOptions Gen Loc Lcn Crd Bnd)
    (out : List String) (h : nonNilLocationGroups o = 1) :
    (GetParameters ρ o out).stdout = out ++ [diagnostic 1] := by
  rw [GetParameters_of_one ρ o out h]
  rcases first_failure_cases o with hok | ⟨j, e, hj, he, hbefore⟩
  · obtain ⟨p, hl, _⟩ := fieldLoop_all_ok ρ o (out ++ [diagnostic 1]) hok
    rw [hl]
  · obtain ⟨p, hl, _⟩ := fieldLoop_first_failure ρ o (out ++ [diagnostic 1]) j e hj he hbefore
    rw [hl]

/-- A call that fails validation writes nothing. -/
theorem stdout_of_not_one (ρ : RangeOrder) (o : SearchOptions Gen Loc Lcn Crd Bnd)
    (out : List String) (h : nonNilLocationGroups o ≠ 1) :
    (GetParameters ρ o out).stdout = out := by
  rcases Nat.lt_or_ge (nonNilLocationGroups o) 1 with h0 | h2
  · rw [GetParameters_of_zero ρ o out (by omega)]
  · rw [GetParameters_of_many ρ o out (by omega)]

/-! ## Cardinality validation -/

/-- C1: when every present group's own `GetParameters` returns no error,
`SearchOptions.GetParameters` returns a nil error if and only if exactly one of
`LocationOptions`, `CoordinateOptions`, `BoundOptions` is non-nil; it returns an error
when none is set and when two or three are set. -/
theorem getParameters_nil_error_iff_one_location (ρ : RangeOrder)
    (o : SearchOptions Gen Loc Lcn Crd Bnd) (out : List String)
    (hgroups : ∀ j, j < NumField → groupErr o j = none) :
    ((GetParameters ρ o out).err = none ↔ nonNilLocationGroups o = 1) ∧
    (nonNilLocationGroups o = 0 → (GetParameters ρ o out).err ≠ none) ∧
    (2 ≤ nonNilLocationGroups o → (GetParameters ρ o out).err ≠ none) := by
  have h0 : nonNilLocationGroups o = 0 → (GetParameters ρ o out).err ≠ none := by
    intro h; rw [GetParameters_of_zero ρ o out h]; simp
  have h2 : 2 ≤ nonNilLocationGroups o → (GetParameters ρ o out).err ≠ none := by
    intro h; rw [GetParameters_of_many ρ o out (by omega)]; simp
  refine ⟨⟨?_, ?_⟩, h0, h2⟩
  · intro herr
    by_contra hne
    rcases Nat.lt_or_ge (nonNilLocationGroups o) 1 with hlt | hge
    · exact h0 (by omega) herr
    · exact h2 (by omega) herr
  · intro h1
    obtain ⟨params', hrun, _⟩ := fieldLoop_all_ok ρ o (out ++ [diagnostic 1]) hgroups
    rw [GetParameters_of_one ρ o out h1, hrun]

theorem getParameters_nil_error_iff_one_location_witness :
    (∀ j, j < NumField → groupErr coordinateOnly j = none) ∧
    (((GetParameters RangeOrder.stored coordinateOnly []).err = none ↔
        nonNilLocationGroups coordinateOnly = 1) ∧
      (nonNilLocationGroups coordinateOnly = 0 →
        (GetParameters RangeOrder.stored coordinateOnly []).err ≠ none) ∧
      (2 ≤ nonNilLocationGroups coordinateOnly →
        (GetParameters RangeOrder.stored coordinateOnly []).err ≠ none)) :=
  ⟨by unfold NumField; decide,
    getParameters_nil_error_iff_one_location RangeOrder.stored coordinateOnly []
      (by unfold NumField; decide)⟩

/-- C2: the error returned when no location group is set differs, in value and in
message, from the error returned when two or more are set; and for two calls whose
numbers of non-nil location groups agree (and are not one) the errors are the same,
whatever the groups hold, the range order and the standard output. -/
theorem validation_errors_distinct_and_by_count (ρ₁ ρ₂ : RangeOrder)
    (o₁ o₂ : SearchOptions Gen Loc Lcn Crd Bnd) (out₁ out₂ : List String) :
    (nonNilLocationGroups o₁ = 0 → 2 ≤ nonNilLocationGroups o₂ →
      ∃ e₁ e₂, (GetParameters ρ₁ o₁ out₁).err = some e₁ ∧
        (GetParameters ρ₂ o₂ out₂).err = some e₂ ∧ e₁ ≠ e₂ ∧ e₁.text ≠ e₂.text) ∧
    (nonNilLocationGroups o₁ = nonNilLocationGroups o₂ → nonNilLocationGroups o₁ ≠ 1 →
      (GetParameters ρ₁ o₁ out₁).err = (GetParameters ρ₂ o₂ out₂).err ∧
      (GetParameters ρ₁ o₁ out₁).err ≠ none) := by
  constructor
  · intro h0 h2
    refine ⟨errNoLocation, errMultipleLocations, ?_, ?_, by decide, by decide⟩
    · rw [GetParameters_of_zero ρ₁ o₁ out₁ h0]
    · rw [GetParameters_of_many ρ₂ o₂ out₂ (by omega)]
  · intro heq hne
    rcases Nat.lt_or_ge (nonNilLocationGroups o₁) 1 with hlt | hge
    · rw [GetParameters_of_zero ρ₁ o₁ out₁ (by omega),
        GetParameters_of_zero ρ₂ o₂ out₂ (by omega)]
      simp
    · rw [GetParameters_of_many ρ₁ o₁ out₁ (by omega),
        GetParameters_of_many ρ₂ o₂ out₂ (by omega)]
      simp

theorem validation_errors_distinct_and_by_count_witness :
    nonNilLocationGroups noOptions = 0 ∧ 2 ≤ nonNilLocationGroups twoLocations ∧
    (∃ e₁ e₂, (GetParameters RangeOrder.stored noOptions []).err = some e₁ ∧
      (GetParameters RangeOrder.reversed twoLocations ["x"]).err = some e₂ ∧
      e₁ ≠ e₂ ∧ e₁.text ≠ e₂.text) ∧
    nonNilLocationGroups twoLocations = nonNilLocationGroups coordinateAndBound ∧
    nonNilLocationGroups twoLocations ≠ 1 ∧
    ((GetParameters RangeOrder.stored twoLocations []).err =
        (GetParameters RangeOrder.reversed coordinateAndBound ["x"]).err ∧
      (GetParameters RangeOrder.stored twoLocations []).err ≠ none) :=
  ⟨by decide, by decide,
    (validation_errors_distinct_and_by_count RangeOrder.stored RangeOrder.reversed
      noOptions twoLocations [] ["x"]).1 (by decide) (by decide),
    by decide, by decide,
    (validation_errors_distinct_and_by_count RangeOrder.stored RangeOrder.reversed
      twoLocations coordinateAndBound [] ["x"]).2 (by decide) (by decide)⟩

/-- C3 fails as stated: with no location group set the message of the error is not
"no location strategy provided", and with two set it is not
"multiple mutually exclusive location strategies provided". -/
theorem validation_messages_counterexample :
    nonNilLocationGroups noOptions = 0 ∧
    (GetParameters RangeOrder.stored noOptions []).err ≠
      some (errorsNew "no location strategy provided") ∧
    1 < nonNilLocationGroups twoLocations ∧
    (GetParameters RangeOrder.stored twoLocations []).err ≠
      some (errorsNew "multiple mutually exclusive location strategies provided") := by
  decide

/-- C3, amended: when the count of non-nil location groups is 0 the method fails with
the message "A single location search options type (Location, Coordinate, Bound) must
be used."; when the count is greater than 1 it fails with the message "Only a single
location search options type (Location, Coordinate, Bound) can be used at a time.". -/
theorem validation_messages (ρ : RangeOrder) (o : SearchOptions Gen Loc Lcn Crd Bnd)
    (out : List String) :
    (nonNilLocationGroups o = 0 →
      ∃ e, (GetParameters ρ o out).err = some e ∧ e.text =
        "A single location search options type (Location, Coordinate, Bound) must be used.") ∧
    (1 < nonNilLocationGroups o →
      ∃ e, (GetParameters ρ o out).err = some e ∧ e.text =
        "Only a single location search options type (Location, Coordinate, Bound) can be used at a time.") := by
  constructor
  · intro h
    exact ⟨errNoLocation, by rw [GetParameters_of_zero ρ o out h], rfl⟩
  · intro h
    exact ⟨errMultipleLocations, by rw [GetParameters_of_many ρ o out h], rfl⟩

theorem validation_messages_witness :
    nonNilLocationGroups noOptions = 0 ∧
    (∃ e, (GetParameters RangeOrder.stored noOptions []).err = some e ∧ e.text =
      "A single location search options type (Location, Coordinate, Bound) must be used.") ∧
    1 < nonNilLocationGroups twoLocations ∧
    (∃ e, (GetParameters RangeOrder.stored twoLocations []).err = some e ∧ e.text =
      "Only a single location search options type (Location, Coordinate, Bound) can be used at a time.") :=
  ⟨by decide, (validation_messages RangeOrder.stored noOptions []).1 (by decide),
    by decide, (validation_messages RangeOrder.stored twoLocations []).2 (by decide)⟩

/-- C4: whenever the cardinality validation fails (the number of non-nil location
groups is not one) the method returns the nil map, which holds no key, and invokes
`GetParameters` on no group; the outcome is the same whatever `GeneralOptions` and
`LocaleOptions` are replaced by; and with no group set at all the outcome is the
no-location error and the nil map. -/
theorem validation_failure_returns_nil_map (ρ : RangeOrder)
    (o : SearchOptions Gen Loc Lcn Crd Bnd) (out : List String)
    (hfail : nonNilLocationGroups o ≠ 1) :
    (GetParameters ρ o out).params = none ∧
    (∀ k, (GetParameters ρ o out).params.get k = none) ∧
    (GetParameters ρ o out).calls = [] ∧
    (GetParameters ρ o out).err ≠ none ∧
    (∀ (ρ' : RangeOrder) (g : Option Gen) (l : Option Loc),
      GetParameters ρ' (⟨g, l, o.LocationOptions, o.CoordinateOptions, o.BoundOptions⟩ :
        SearchOptions Gen Loc Lcn Crd Bnd) out = GetParameters ρ o out) ∧
    GetParameters ρ (⟨none, none, none, none, none⟩ : SearchOptions Gen Loc Lcn Crd Bnd) out =
      ⟨none, some errNoLocation, out, []⟩ := by
  have hcases : nonNilLocationGroups o = 0 ∨ 1 < nonNilLocationGroups o := by omega
  have hsame : ∀ (g : Option Gen) (l : Option Loc),
      nonNilLocationGroups (⟨g, l, o.LocationOptions, o.CoordinateOptions, o.BoundOptions⟩ :
        SearchOptions Gen Loc Lcn Crd Bnd) = nonNilLocationGroups o := fun _ _ => rfl
  refine ⟨?_, ?_, ?_, ?_, ?_, GetParameters_of_zero ρ _ out rfl⟩
  · rcases hcases with h | h
    · rw [GetParameters_of_zero ρ o out h]
    · rw [GetParameters_of_many ρ o out h]
  · intro k
    rcases hcases with h | h
    · rw [GetParameters_of_zero ρ o out h]; rfl
    · rw [GetParameters_of_many ρ o out h]; rfl
  · rcases hcases with h | h
    · rw [GetParameters_of_zero ρ o out h]
    · rw [GetParameters_of_many ρ o out h]
  · rcases hcases with h | h
    · rw [GetParameters_of_zero ρ o out h]; simp
    · rw [GetParameters_of_many ρ o out h]; simp
  · intro ρ' g l
    rcases hcases with h | h
    · rw [GetParameters_of_zero ρ o out h, GetParameters_of_zero ρ' _ out ((hsame g l).trans h)]
    · rw [GetParameters_of_many ρ o out h,
        GetParameters_of_many ρ' _ out (lt_of_lt_of_eq h (hsame g l).symm)]

theorem validation_failure_returns_nil_map_witness :
    nonNilLocationGroups coordinateAndBound ≠ 1 ∧
    ((GetParameters RangeOrder.stored coordinateAndBound []).params = none ∧
    (∀ k, (GetParameters RangeOrder.stored coordinateAndBound []).params.get k = none) ∧
    (GetParameters RangeOrder.stored coordinateAndBound []).calls = [] ∧
    (GetParameters RangeOrder.stored coordinateAndBound []).err ≠ none ∧
    (∀ (ρ' : RangeOrder) (g : Option FixedOptions) (l : Option FixedOptions),
      GetParameters ρ' (⟨g, l, coordinateAndBound.LocationOptions,
        coordinateAndBound.CoordinateOptions, coordinateAndBound.BoundOptions⟩ : Sample) [] =
        GetParameters RangeOrder.stored coordinateAndBound []) ∧
    GetParameters RangeOrder.stored (⟨none, none, none, none, none⟩ : Sample) [] =
      ⟨none, some errNoLocation, [], []⟩) :=
  ⟨by decide, validation_failure_returns_nil_map RangeOrder.stored coordinateAndBound []
    (by decide)⟩

/-! ## Merging the groups -/

theorem generalAndCoordinate_disjoint :
    ∀ i j k, i < NumField → j < NumField → i ≠ j →
      (contribution generalAndCoordinate i).get k ≠ none →
      (contribution generalAndCoordinate j).get k = none := by
  intro i j k hi hj hij
  unfold NumField at hi hj
  have hterm : (contribution generalAndCoordinate 0).get k ≠ none → k = "term" := by
    intro h
    by_contra hk
    exact h (AList.lookup_insert_ne hk)
  have hll : (contribution generalAndCoordinate 3).get k ≠ none → k = "ll" := by
    intro h
    by_contra hk
    exact h (AList.lookup_insert_ne hk)
  interval_cases i <;> interval_cases j <;> first
    | exact absurd rfl hij
    | (intro _; rfl)
    | (intro h; exact absurd rfl h)
    | (intro h; rw [hterm h]; decide)
    | (intro h; rw [hll h]; decide)


/-- C5: when validation passes, every present group succeeds and no key is held by the
maps of two different groups, the method succeeds with an allocated map that is the
union of the present groups' maps: it holds the pair `(k, v)` exactly when some present
group's map does. -/
theorem merged_map_is_union_of_disjoint (ρ : RangeOrder)
    (o : SearchOptions Gen Loc Lcn Crd Bnd) (out : List String)
    (hone : nonNilLocationGroups o = 1)
    (hok : ∀ j, j < NumField → groupErr o j = none)
    (hdisj : ∀ i j k, i < NumField → j < NumField → i ≠ j →
      (contribution o i).get k ≠ none → (contribution o j).get k = none) :
    (GetParameters ρ o out).err = none ∧ (GetParameters ρ o out).params ≠ none ∧
    ∀ k v, (GetParameters ρ o out).params.get k = some v ↔
      ∃ j, j < NumField ∧ present o j = true ∧ (contribution o j).get k = some v := by
  obtain ⟨params', hloop, hm⟩ := fieldLoop_all_ok ρ o (out ++ [diagnostic 1]) hok
  rw [GetParameters_of_one ρ o out hone, hloop]
  refine ⟨rfl, by simp, ?_⟩
  intro k v
  have hpres : ∀ j w, (contribution o j).get k = some w → present o j = true := by
    intro j w hw
    cases hF : Field o j with
    | none => simp [contribution, hF, GoMap.get] at hw
    | some p => simp [present, hF]
  have hlast : ∀ j w, j < NumField → (contribution o j).get k = some w →
      params'.lookup k = some w := by
    intro j w hj hw
    apply (hm k).2 j w (Nat.zero_le j) hj hw
    intro j' hlt hj'
    exact hdisj j j' k hj hj' (by omega) (by rw [hw]; simp)
  show params'.lookup k = some v ↔ _
  constructor
  · intro hv
    have hne : params'.lookup k ≠ none := by rw [hv]; simp
    rcases (mergedOver_lookup_ne_none o 0 NumField ∅ params' k hm).mp hne with hb | ⟨j, _, hj, hc⟩
    · simp at hb
    · obtain ⟨w, hw⟩ := Option.ne_none_iff_exists'.mp hc
      have hvw : some v = some w := by rw [← hv, hlast j w hj hw]
      cases hvw
      exact ⟨j, hj, hpres j v hw, hw⟩
  · rintro ⟨j, hj, _, hw⟩
    exact hlast j v hj hw

theorem merged_map_is_union_of_disjoint_witness :
    nonNilLocationGroups generalAndCoordinate = 1 ∧
    (∀ j, j < NumField → groupErr generalAndCoordinate j = none) ∧
    ((GetParameters RangeOrder.reversed generalAndCoordinate []).err = none ∧
      (GetParameters RangeOrder.reversed generalAndCoordinate []).params ≠ none ∧
      ∀ k v, (GetParameters RangeOrder.reversed generalAndCoordinate []).params.get k = some v ↔
        ∃ j, j < NumField ∧ present generalAndCoordinate j = true ∧
          (contribution generalAndCoordinate j).get k = some v) :=
  ⟨by decide, by unfold NumField; decide,
    merged_map_is_union_of_disjoint RangeOrder.reversed generalAndCoordinate [] (by decide)
      (by unfold NumField; decide) generalAndCoordinate_disjoint⟩

/-- C6: after a successful call, a key is in the returned map exactly when the map of
some present group holds it, and its value is the one given by the last group, in the
order `GeneralOptions`, `LocaleOptions`, `LocationOptions`, `CoordinateOptions`,
`BoundOptions`, whose map holds it. -/
theorem merged_map_last_write_wins (ρ : RangeOrder)
    (o : SearchOptions Gen Loc Lcn Crd Bnd) (out : List String) (k : String)
    (hsucc : (GetParameters ρ o out).err = none) :
    ((GetParameters ρ o out).params.get k ≠ none ↔
      ∃ j, j < NumField ∧ present o j = true ∧ (contribution o j).get k ≠ none) ∧
    (∀ j v, j < NumField → (contribution o j).get k = some v →
      (∀ j', j < j' → j' < NumField → (contribution o j').get k = none) →
      (GetParameters ρ o out).params.get k = some v) := by
  obtain ⟨_, _, params', hrun, hm⟩ := success_inv ρ o out hsucc
  rw [hrun]
  have hpres : ∀ j, (contribution o j).get k ≠ none → present o j = true := by
    intro j hw
    cases hF : Field o j with
    | none => simp [contribution, hF, GoMap.get] at hw
    | some p => simp [present, hF]
  constructor
  · show params'.lookup k ≠ none ↔ _
    rw [mergedOver_lookup_ne_none o 0 NumField ∅ params' k hm]
    constructor
    · rintro (hb | ⟨j, _, hj, hc⟩)
      · simp at hb
      · exact ⟨j, hj, hpres j hc, hc⟩
    · rintro ⟨j, hj, _, hc⟩
      exact Or.inr ⟨j, Nat.zero_le j, hj, hc⟩
  · intro j v hj hv hlater
    exact (hm k).2 j v (Nat.zero_le j) hj hv hlater

theorem merged_map_last_write_wins_witness :
    (GetParameters RangeOrder.reversed collidingGroups []).err = none ∧
    ((GetParameters RangeOrder.reversed collidingGroups []).params.get "term" ≠ none ↔
      ∃ j, j < NumField ∧ present collidingGroups j = true ∧
        (contribution collidingGroups j).get "term" ≠ none) ∧
    (∀ j v, j < NumField → (contribution collidingGroups j).get "term" = some v →
      (∀ j', j < j' → j' < NumField → (contribution collidingGroups j').get "term" = none) →
      (GetParameters RangeOrder.reversed collidingGroups []).params.get "term" = some v) :=
  ⟨by decide, merged_map_last_write_wins RangeOrder.reversed collidingGroups [] "term"
    (by decide)⟩

/-- C7: when validation passes and some present group's `GetParameters` returns an
error, the method returns the error of the first such group in declaration order,
unchanged, having invoked the non-nil fields up to that group and none after it. -/
theorem first_group_error_propagates (ρ : RangeOrder)
    (o : SearchOptions Gen Loc Lcn Crd Bnd) (out : List String)
    (hone : nonNilLocationGroups o = 1)
    (hfail : ∃ j, j < NumField ∧ groupErr o j ≠ none) :
    ∃ j e, j < NumField ∧ groupErr o j = some e ∧ (∀ j', j' < j → groupErr o j' = none) ∧
      (GetParameters ρ o out).err = some e ∧
      (GetParameters ρ o out).calls = (List.range (j + 1)).filter (present o) ∧
      j ∈ (GetParameters ρ o out).calls ∧
      ∀ c, c ∈ (GetParameters ρ o out).calls → c ≤ j := by
  rcases first_failure_cases o with hok | ⟨j, e, hj, he, hbefore⟩
  · obtain ⟨j, hj, hne⟩ := hfail
    exact absurd (hok j hj) hne
  · obtain ⟨params', hloop, _⟩ :=
      fieldLoop_first_failure ρ o (out ++ [diagnostic 1]) j e hj he hbefore
    rw [GetParameters_of_one ρ o out hone, hloop]
    refine ⟨j, e, hj, he, hbefore, rfl, rfl, ?_, ?_⟩
    · have hp : present o j = true := by
        cases hF : Field o j with
        | none => simp [groupErr, hF] at he
        | some p => simp [present, hF]
      simp [List.mem_filter, hp]
    · intro c hc
      have := (List.mem_filter.mp hc).1
      simp at this
      omega

theorem first_group_error_propagates_witness :
    nonNilLocationGroups twoFailingGroups = 1 ∧
    (∃ j, j < NumField ∧ groupErr twoFailingGroups j ≠ none) ∧
    ∃ j e, j < NumField ∧ groupErr twoFailingGroups j = some e ∧
      (∀ j', j' < j → groupErr twoFailingGroups j' = none) ∧
      (GetParameters RangeOrder.stored twoFailingGroups []).err = some e ∧
      (GetParameters RangeOrder.stored twoFailingGroups []).calls =
        (List.range (j + 1)).filter (present twoFailingGroups) ∧
      j ∈ (GetParameters RangeOrder.stored twoFailingGroups []).calls ∧
      ∀ c, c ∈ (GetParameters RangeOrder.stored twoFailingGroups []).calls → c ≤ j :=
  ⟨by decide, ⟨2, by decide, by decide⟩,
    first_group_error_propagates RangeOrder.stored twoFailingGroups [] (by decide)
      ⟨2, by decide, by decide⟩⟩

/-! ## Repeated calls and independence of the groups -/

/-- C8: a second call of `GetParameters` on the same `SearchOptions`, made after the
first (on the standard output the first left, and with any range order), yields the
same error and a map with the same key/value pairs, nil exactly when the first is. -/
theorem getParameters_twice_same (ρ₁ ρ₂ : RangeOrder) (o : SearchOptions Gen Loc Lcn Crd Bnd)
    (out : List String) :
    (GetParameters ρ₂ o (GetParameters ρ₁ o out).stdout).err = (GetParameters ρ₁ o out).err ∧
    ((GetParameters ρ₂ o (GetParameters ρ₁ o out).stdout).params = none ↔
      (GetParameters ρ₁ o out).params = none) ∧
    ∀ k, (GetParameters ρ₂ o (GetParameters ρ₁ o out).stdout).params.get k =
      (GetParameters ρ₁ o out).params.get k := by
  rcases Nat.lt_trichotomy (nonNilLocationGroups o) 1 with h | h | h
  · have h0 : nonNilLocationGroups o = 0 := by omega
    simp [GetParameters_of_zero _ o _ h0]
  · refine ⟨(outcome_congr ρ₂ ρ₁ o o _ out "" h h (fun _ _ => rfl) (fun _ _ => rfl)).1, ?_, ?_⟩
    · constructor
      · intro hnil
        exact absurd hnil (params_ne_none_of_one ρ₂ o _ h)
      · intro hnil
        exact absurd hnil (params_ne_none_of_one ρ₁ o out h)
    · intro k
      exact (outcome_congr ρ₂ ρ₁ o o _ out k h h (fun _ _ => rfl) (fun _ _ => rfl)).2
  · simp [GetParameters_of_many _ o _ h]

/-- Two options that pass validation and differ only in `LocaleOptions`, neither holding
a `LocaleOptions` that fails, agree on every key that neither `LocaleOptions` map holds;
and likewise for two options that differ only in `GeneralOptions`. -/
theorem agree_off_differing_group (ρ₁ ρ₂ : RangeOrder) (g₁ g₂ : Option Gen) (l₁ l₂ : Option Loc)
    (n : Option Lcn) (c : Option Crd) (b : Option Bnd) (out₁ out₂ : List String) (k : String)
    (hone : nonNilLocationGroups (⟨g₁, l₁, n, c, b⟩ : SearchOptions Gen Loc Lcn Crd Bnd) = 1) :
    (groupErr (⟨g₁, l₁, n, c, b⟩ : SearchOptions Gen Loc Lcn Crd Bnd) 1 = none →
      groupErr (⟨g₁, l₂, n, c, b⟩ : SearchOptions Gen Loc Lcn Crd Bnd) 1 = none →
      (contribution (⟨g₁, l₁, n, c, b⟩ : SearchOptions Gen Loc Lcn Crd Bnd) 1).get k = none →
      (contribution (⟨g₁, l₂, n, c, b⟩ : SearchOptions Gen Loc Lcn Crd Bnd) 1).get k = none →
      (GetParameters ρ₁ (⟨g₁, l₁, n, c, b⟩ : SearchOptions Gen Loc Lcn Crd Bnd) out₁).params.get k =
        (GetParameters ρ₂ (⟨g₁, l₂, n, c, b⟩ : SearchOptions Gen Loc Lcn Crd Bnd) out₂).params.get k) ∧
    (groupErr (⟨g₁, l₁, n, c, b⟩ : SearchOptions Gen Loc Lcn Crd Bnd) 0 = none →
      groupErr (⟨g₂, l₁, n, c, b⟩ : SearchOptions Gen Loc Lcn Crd Bnd) 0 = none →
      (contribution (⟨g₁, l₁, n, c, b⟩ : SearchOptions Gen Loc Lcn Crd Bnd) 0).get k = none →
      (contribution (⟨g₂, l₁, n, c, b⟩ : SearchOptions Gen Loc Lcn Crd Bnd) 0).get k = none →
      (GetParameters ρ₁ (⟨g₁, l₁, n, c, b⟩ : SearchOptions Gen Loc Lcn Crd Bnd) out₁).params.get k =
        (GetParameters ρ₂ (⟨g₂, l₁, n, c, b⟩ : SearchOptions Gen Loc Lcn Crd Bnd) out₂).params.get k) := by
  constructor
  · intro he₁ he₂ hk₁ hk₂
    refine (outcome_congr ρ₁ ρ₂ ⟨g₁, l₁, n, c, b⟩ ⟨g₁, l₂, n, c, b⟩ out₁ out₂ k hone hone ?_ ?_).2
    · intro j hj
      unfold NumField at hj
      interval_cases j
      · rfl
      · rw [he₁, he₂]
      all_goals rfl
    · intro j hj
      unfold NumField at hj
      interval_cases j
      · rfl
      · rw [hk₁, hk₂]
      all_goals rfl
  · intro he₁ he₂ hk₁ hk₂
    refine (outcome_congr ρ₁ ρ₂ ⟨g₁, l₁, n, c, b⟩ ⟨g₂, l₁, n, c, b⟩ out₁ out₂ k hone hone ?_ ?_).2
    · intro j hj
      unfold NumField at hj
      interval_cases j
      · rw [he₁, he₂]
      all_goals rfl
    · intro j hj
      unfold NumField at hj
      interval_cases j
      · rw [hk₁, hk₂]
      all_goals rfl

/-- C9: for two `SearchOptions` that pass validation and differ only in `LocaleOptions`
(present or absent, or of different content), on calls that return a nil error, every
key that neither `LocaleOptions` map holds has the same value, or the same absence, in
both results, so the pairs of `GeneralOptions` appear unchanged; and likewise, with the
roles swapped, for two that differ only in `GeneralOptions`. -/
theorem group_independence (ρ₁ ρ₂ : RangeOrder) (g₁ g₂ : Option Gen) (l₁ l₂ : Option Loc)
    (n : Option Lcn) (c : Option Crd) (b : Option Bnd) (out₁ out₂ : List String) (k : String)
    (hone : nonNilLocationGroups (⟨g₁, l₁, n, c, b⟩ : SearchOptions Gen Loc Lcn Crd Bnd) = 1) :
    ((GetParameters ρ₁ (⟨g₁, l₁, n, c, b⟩ : SearchOptions Gen Loc Lcn Crd Bnd) out₁).err = none →
      (GetParameters ρ₂ (⟨g₁, l₂, n, c, b⟩ : SearchOptions Gen Loc Lcn Crd Bnd) out₂).err = none →
      (contribution (⟨g₁, l₁, n, c, b⟩ : SearchOptions Gen Loc Lcn Crd Bnd) 1).get k = none →
      (contribution (⟨g₁, l₂, n, c, b⟩ : SearchOptions Gen Loc Lcn Crd Bnd) 1).get k = none →
      (GetParameters ρ₁ (⟨g₁, l₁, n, c, b⟩ : SearchOptions Gen Loc Lcn Crd Bnd) out₁).params.get k =
        (GetParameters ρ₂ (⟨g₁, l₂, n, c, b⟩ : SearchOptions Gen Loc Lcn Crd Bnd) out₂).params.get k) ∧
    ((GetParameters ρ₁ (⟨g₁, l₁, n, c, b⟩ : SearchOptions Gen Loc Lcn Crd Bnd) out₁).err = none →
      (GetParameters ρ₂ (⟨g₂, l₁, n, c, b⟩ : SearchOptions Gen Loc Lcn Crd Bnd) out₂).err = none →
      (contribution (⟨g₁, l₁, n, c, b⟩ : SearchOptions Gen Loc Lcn Crd Bnd) 0).get k = none →
      (contribution (⟨g₂, l₁, n, c, b⟩ : SearchOptions Gen Loc Lcn Crd Bnd) 0).get k = none →
      (GetParameters ρ₁ (⟨g₁, l₁, n, c, b⟩ : SearchOptions Gen Loc Lcn Crd Bnd) out₁).params.get k =
        (GetParameters ρ₂ (⟨g₂, l₁, n, c, b⟩ : SearchOptions Gen Loc Lcn Crd Bnd) out₂).params.get k) := by
  have h := agree_off_differing_group ρ₁ ρ₂ g₁ g₂ l₁ l₂ n c b out₁ out₂ k hone
  constructor
  · intro hs₁ hs₂ hk₁ hk₂
    exact h.1 ((success_inv ρ₁ _ out₁ hs₁).2.1 1 (by decide))
      ((success_inv ρ₂ _ out₂ hs₂).2.1 1 (by decide)) hk₁ hk₂
  · intro hs₁ hs₂ hk₁ hk₂
    exact h.2 ((success_inv ρ₁ _ out₁ hs₁).2.1 0 (by decide))
      ((success_inv ρ₂ _ out₂ hs₂).2.1 0 (by decide)) hk₁ hk₂

theorem group_independence_witness :
    nonNilLocationGroups (⟨sampleGeneral, sampleLocale, sampleLocation, none, none⟩ : Sample) = 1 ∧
    (GetParameters RangeOrder.stored
      (⟨sampleGeneral, sampleLocale, sampleLocation, none, none⟩ : Sample) []).err = none ∧
    (GetParameters RangeOrder.reversed
      (⟨sampleGeneral, none, sampleLocation, none, none⟩ : Sample) ["x"]).err = none ∧
    (contribution (⟨sampleGeneral, sampleLocale, sampleLocation, none, none⟩ : Sample) 1).get
      "term" = none ∧
    (contribution (⟨sampleGeneral, none, sampleLocation, none, none⟩ : Sample) 1).get
      "term" = none ∧
    (GetParameters RangeOrder.stored
        (⟨sampleGeneral, sampleLocale, sampleLocation, none, none⟩ : Sample) []).params.get "term" =
      (GetParameters RangeOrder.reversed
        (⟨sampleGeneral, none, sampleLocation, none, none⟩ : Sample) ["x"]).params.get "term" ∧
    (GetParameters RangeOrder.reversed
      (⟨none, sampleLocale, sampleLocation, none, none⟩ : Sample) ["x"]).err = none ∧
    (contribution (⟨sampleGeneral, sampleLocale, sampleLocation, none, none⟩ : Sample) 0).get
      "cc" = none ∧
    (contribution (⟨none, sampleLocale, sampleLocation, none, none⟩ : Sample) 0).get
      "cc" = none ∧
    (GetParameters RangeOrder.stored
        (⟨sampleGeneral, sampleLocale, sampleLocation, none, none⟩ : Sample) []).params.get "cc" =
      (GetParameters RangeOrder.reversed
        (⟨none, sampleLocale, sampleLocation, none, none⟩ : Sample) ["x"]).params.get "cc" :=
  ⟨by decide, by decide, by decide, by decide, by decide,
    (group_independence RangeOrder.stored RangeOrder.reversed sampleGeneral none sampleLocale none
      sampleLocation none none [] ["x"] "term" (by decide)).1
      (by decide) (by decide) (by decide) (by decide),
    by decide, by decide, by decide,
    (group_independence RangeOrder.stored RangeOrder.reversed sampleGeneral none sampleLocale none
      sampleLocation none none [] ["x"] "cc" (by decide)).2
      (by decide) (by decide) (by decide) (by decide)⟩

/-! ## The coordinate test -/

/-- C10: for a `SearchOptions` holding only a `CoordinateOptions` whose latitude and
longitude are present and whose other three fields are absent, the method returns a nil
error and a map holding exactly the keys `latitude` and `longitude`, with the string
representations of the two values; for the test's values 37.9 and -122.5 the map is
`{"latitude":"37.9","longitude":"-122.5"}`. -/
theorem coordinate_only_parameters {T : Type} [CoordinateFormat T] (ρ : RangeOrder)
    (lat lng : T) (out : List String) :
    ((GetParameters ρ (⟨none, none, none, some ⟨some lat, some lng, none, none, none⟩, none⟩ :
        SearchOptions Gen Loc Lcn (CoordinateOptions T) Bnd) out).err = none ∧
      ∀ k, (GetParameters ρ (⟨none, none, none, some ⟨some lat, some lng, none, none, none⟩, none⟩ :
          SearchOptions Gen Loc Lcn (CoordinateOptions T) Bnd) out).params.get k =
        if k = "latitude" then some (CoordinateFormat.format lat)
        else if k = "longitude" then some (CoordinateFormat.format lng)
        else none) ∧
    ((GetParameters ρ testCoordinateOptions out).err = none ∧
      ∀ k, (GetParameters ρ testCoordinateOptions out).params.get k =
        if k = "latitude" then some "37.9"
        else if k = "longitude" then some "-122.5"
        else none) := by
  have key : ∀ (G L N B U : Type) [OptionProvider G] [OptionProvider L] [OptionProvider N]
      [OptionProvider B] [CoordinateFormat U] (x y : U),
      (GetParameters ρ (⟨none, none, none, some ⟨some x, some y, none, none, none⟩, none⟩ :
        SearchOptions G L N (CoordinateOptions U) B) out).err = none ∧
      ∀ k, (GetParameters ρ (⟨none, none, none, some ⟨some x, some y, none, none, none⟩, none⟩ :
          SearchOptions G L N (CoordinateOptions U) B) out).params.get k =
        if k = "latitude" then some (CoordinateFormat.format x)
        else if k = "longitude" then some (CoordinateFormat.format y)
        else none := by
    intro G L N B U _ _ _ _ _ x y
    have hone : nonNilLocationGroups
        (⟨none, none, none, some ⟨some x, some y, none, none, none⟩, none⟩ :
          SearchOptions G L N (CoordinateOptions U) B) = 1 := rfl
    rw [GetParameters_of_one ρ _ out hone]
    simp only [fieldLoop, NumField, Field, Option.map_none', Option.map_some',
      OptionProvider.GetParameters, CoordinateOptions.GetParameters, emitNullable]
    simp only [Nat.lt_irrefl, if_true, if_false, Nat.reduceLT, Nat.reduceAdd, GoMap.get,
      Nat.zero_lt_succ, mergeField_lookup, lookup_insert_ite, AList.lookup_empty]
    refine ⟨trivial, ?_⟩
    intro k
    by_cases h₁ : k = "longitude"
    · subst h₁
      simp
    · by_cases h₂ : k = "latitude"
      · subst h₂
        simp
      · simp [h₁, h₂]
  exact ⟨key Gen Loc Lcn Bnd T lat lng,
    key FixedOptions FixedOptions FixedOptions FixedOptions Decimal1 ⟨false, 37, 9⟩ ⟨true, 122, 5⟩⟩

/-! ## The map returned with a group error -/

/-- C11: when validation passes and field `j` is the first whose group returns an error,
the map returned with that error is allocated and is the last-write-wins merge of the
maps of the present groups before `j`: it holds a key exactly when one of them does,
with the value given by the last of them that holds it, and so holds no pair that only
the failing group or a later group gives. -/
theorem partial_map_on_group_error (ρ : RangeOrder) (o : SearchOptions Gen Loc Lcn Crd Bnd)
    (out : List String) (k : String) (j : Nat) (e : GoError)
    (hone : nonNilLocationGroups o = 1) (hj : j < NumField)
    (he : groupErr o j = some e) (hfirst : ∀ j', j' < j → groupErr o j' = none) :
    (GetParameters ρ o out).err = some e ∧ (GetParameters ρ o out).params ≠ none ∧
    ((GetParameters ρ o out).params.get k ≠ none ↔
      ∃ i, i < j ∧ present o i = true ∧ (contribution o i).get k ≠ none) ∧
    (∀ i v, i < j → (contribution o i).get k = some v →
      (∀ i', i < i' → i' < j → (contribution o i').get k = none) →
      (GetParameters ρ o out).params.get k = some v) ∧
    ((∀ i, i < j → (contribution o i).get k = none) →
      (GetParameters ρ o out).params.get k = none) := by
  obtain ⟨params', hloop, hm⟩ :=
    fieldLoop_first_failure ρ o (out ++ [diagnostic 1]) j e hj he hfirst
  rw [GetParameters_of_one ρ o out hone, hloop]
  have hpres : ∀ i, (contribution o i).get k ≠ none → present o i = true := by
    intro i hw
    cases hF : Field o i with
    | none => simp [contribution, hF, GoMap.get] at hw
    | some p => simp [present, hF]
  refine ⟨rfl, by simp, ?_, ?_, ?_⟩
  · show params'.lookup k ≠ none ↔ _
    rw [mergedOver_lookup_ne_none o 0 j ∅ params' k hm]
    constructor
    · rintro (hb | ⟨i, _, hi, hc⟩)
      · simp at hb
      · exact ⟨i, hi, hpres i hc, hc⟩
    · rintro ⟨i, hi, _, hc⟩
      exact Or.inr ⟨i, Nat.zero_le i, hi, hc⟩
  · intro i v hi hv hlater
    exact (hm k).2 i v (Nat.zero_le i) hi hv hlater
  · intro hnone
    show params'.lookup k = none
    rw [(hm k).1 (fun i _ hi => hnone i hi)]
    rfl

theorem partial_map_on_group_error_witness :
    nonNilLocationGroups failingAfterTwo = 1 ∧ 2 < NumField ∧
    groupErr failingAfterTwo 2 = some (errorsNew "bad location") ∧
    (∀ j', j' < 2 → groupErr failingAfterTwo j' = none) ∧
    ((GetParameters RangeOrder.reversed failingAfterTwo []).err =
        some (errorsNew "bad location") ∧
      (GetParameters RangeOrder.reversed failingAfterTwo []).params ≠ none ∧
      ((GetParameters RangeOrder.reversed failingAfterTwo []).params.get "term" ≠ none ↔
        ∃ i, i < 2 ∧ present failingAfterTwo i = true ∧
          (contribution failingAfterTwo i).get "term" ≠ none) ∧
      (∀ i v, i < 2 → (contribution failingAfterTwo i).get "term" = some v →
        (∀ i', i < i' → i' < 2 → (contribution failingAfterTwo i').get "term" = none) →
        (GetParameters RangeOrder.reversed failingAfterTwo []).params.get "term" = some v) ∧
      ((∀ i, i < 2 → (contribution failingAfterTwo i).get "term" = none) →
        (GetParameters RangeOrder.reversed failingAfterTwo []).params.get "term" = none)) :=
  ⟨by decide, by decide, by decide, by decide,
    partial_map_on_group_error RangeOrder.reversed failingAfterTwo [] "term" 2
      (errorsNew "bad location") (by decide) (by decide) (by decide) (by decide)⟩

/-! ## The diagnostic line -/

/-- C12 fails as stated: with no location group set, and with two set, the call writes
nothing to standard output; no diagnostic line reports the count 0 or 2. -/
theorem diagnostic_on_every_call_counterexample :
    (nonNilLocationGroups noOptions = 0 ∧
      (GetParameters RangeOrder.stored noOptions []).stdout = [] ∧
      diagnostic 0 ∉ (GetParameters RangeOrder.stored noOptions []).stdout) ∧
    (nonNilLocationGroups twoLocations = 2 ∧
      (GetParameters RangeOrder.stored twoLocations []).stdout = [] ∧
      diagnostic 2 ∉ (GetParameters RangeOrder.stored twoLocations []).stdout) := by
  decide

/-- C12, amended: the method writes the diagnostic line reporting how many location
groups are defined after the cardinality validation has passed: the line, with the
actual count, is appended to standard output on exactly the calls that pass validation,
and a call that fails validation (zero or several location groups) leaves standard
output as it was. -/
theorem diagnostic_after_validation (ρ : RangeOrder) (o : SearchOptions Gen Loc Lcn Crd Bnd)
    (out : List String) :
    ((GetParameters ρ o out).stdout = out ++ [diagnostic (nonNilLocationGroups o)] ↔
      nonNilLocationGroups o = 1) ∧
    ((GetParameters ρ o out).stdout = out ↔ nonNilLocationGroups o ≠ 1) := by
  by_cases h : nonNilLocationGroups o = 1
  · have hs := stdout_of_one ρ o out h
    rw [hs, h]
    simp
  · have hs := stdout_of_not_one ρ o out h
    rw [hs]
    simp [h]

/-- C13: the only line the method can write is "There are 1 location options defined";
it writes that line once on every call that passes validation, whether or not a group
fails afterwards, and writes nothing on any other call. -/
theorem diagnostic_count_is_one (ρ : RangeOrder) (o : SearchOptions Gen Loc Lcn Crd Bnd)
    (out : List String) :
    ((GetParameters ρ o out).stdout = out ∨
      (GetParameters ρ o out).stdout = out ++ ["There are 1 location options defined\n"]) ∧
    (nonNilLocationGroups o = 1 →
      (GetParameters ρ o out).stdout = out ++ ["There are 1 location options defined\n"]) ∧
    (nonNilLocationGroups o = 1 → (GetParameters ρ o out).err ≠ none →
      (GetParameters ρ o out).stdout = out ++ ["There are 1 location options defined\n"]) ∧
    (nonNilLocationGroups o ≠ 1 → (GetParameters ρ o out).stdout = out) := by
  have hline : diagnostic 1 = "There are 1 location options defined\n" := by decide
  have h1 : nonNilLocationGroups o = 1 →
      (GetParameters ρ o out).stdout = out ++ ["There are 1 location options defined\n"] := by
    intro h
    rw [stdout_of_one ρ o out h, hline]
  refine ⟨?_, h1, fun h _ => h1 h, stdout_of_not_one ρ o out⟩
  by_cases h : nonNilLocationGroups o = 1
  · exact Or.inr (h1 h)
  · exact Or.inl (stdout_of_not_one ρ o out h)

theorem diagnostic_count_is_one_witness :
    nonNilLocationGroups failingAfterTwo = 1 ∧
    (GetParameters RangeOrder.stored failingAfterTwo ["earlier output"]).err ≠ none ∧
    nonNilLocationGroups twoLocations ≠ 1 ∧
    (GetParameters RangeOrder.stored failingAfterTwo ["earlier output"]).stdout =
      ["earlier output"] ++ ["There are 1 location options defined\n"] ∧
    (GetParameters RangeOrder.stored coordinateOnly ["earlier output"]).stdout =
      ["earlier output"] ++ ["There are 1 location options defined\n"] ∧
    (GetParameters RangeOrder.stored twoLocations ["earlier output"]).stdout =
      ["earlier output"] :=
  ⟨by decide, by decide, by decide,
    (diagnostic_count_is_one RangeOrder.stored failingAfterTwo ["earlier output"]).2.2.1
      (by decide) (by decide),
    (diagnostic_count_is_one RangeOrder.stored coordinateOnly ["earlier output"]).2.1 (by decide),
    (diagnostic_count_is_one RangeOrder.stored twoLocations ["earlier output"]).2.2.2
      (by decide)⟩

/-! ## A single location group -/

/-- C14: for a `SearchOptions` with `GeneralOptions` and `LocaleOptions` nil and exactly
one location group set, a successful call invokes that group alone and returns an
allocated map holding exactly the pairs of that group's map, also when that map is
empty or nil; the nil fields add no key. -/
theorem single_location_group_map (ρ : RangeOrder) (o : SearchOptions Gen Loc Lcn Crd Bnd)
    (out : List String)
    (hg : o.GeneralOptions = none) (hl : o.LocaleOptions = none)
    (hone : nonNilLocationGroups o = 1) (hsucc : (GetParameters ρ o out).err = none) :
    ∃ j, 2 ≤ j ∧ j < NumField ∧ present o j = true ∧
      (∀ i, i ≠ j → present o i = false) ∧
      (GetParameters ρ o out).calls = [j] ∧
      (GetParameters ρ o out).params ≠ none ∧
      ∀ k, (GetParameters ρ o out).params.get k = (contribution o j).get k := by
  obtain ⟨_, _, params', hrun, hm⟩ := success_inv ρ o out hsucc
  have hbeyond : ∀ i, NumField ≤ i → present o i = false := by
    intro i hi
    obtain ⟨f, hf⟩ : ∃ f, i = f + 5 := ⟨i - 5, by unfold NumField at hi; omega⟩
    rw [hf]
    rfl
  have h0 : present o 0 = false := by simp [present, Field, hg]
  have h1 : present o 1 = false := by simp [present, Field, hl]
  have habsent : ∀ i, present o i = false → ∀ k, (contribution o i).get k = none := by
    intro i hi k
    cases hF : Field o i with
    | none => simp [contribution, hF, GoMap.get]
    | some p => simp [present, hF] at hi
  have main : ∀ j, 2 ≤ j → j < NumField → present o j = true →
      (∀ i, i < NumField → i ≠ j → present o i = false) →
      ∃ j, 2 ≤ j ∧ j < NumField ∧ present o j = true ∧
        (∀ i, i ≠ j → present o i = false) ∧
        (GetParameters ρ o out).calls = [j] ∧
        (GetParameters ρ o out).params ≠ none ∧
        ∀ k, (GetParameters ρ o out).params.get k = (contribution o j).get k := by
    intro j hj2 hj hp hothers
    have hall : ∀ i, i ≠ j → present o i = false := by
      intro i hij
      rcases Nat.lt_or_ge i NumField with hi | hi
      · exact hothers i hi hij
      · exact hbeyond i hi
    refine ⟨j, hj2, hj, hp, hall, ?_, ?_, ?_⟩
    · rw [hrun]
      show (List.range NumField).filter (present o) = [j]
      unfold NumField at hj
      interval_cases j
      · simp [NumField, List.range_succ, List.filter_cons, h0, h1, hp,
          hall 3 (by decide), hall 4 (by decide)]
      · simp [NumField, List.range_succ, List.filter_cons, h0, h1, hp,
          hall 2 (by decide), hall 4 (by decide)]
      · simp [NumField, List.range_succ, List.filter_cons, h0, h1, hp,
          hall 2 (by decide), hall 3 (by decide)]
    · rw [hrun]; simp
    · intro k
      rw [hrun]
      show params'.lookup k = _
      cases hv : (contribution o j).get k with
      | none =>
        rw [(hm k).1 (fun i _ _ => by
          by_cases hij : i = j
          · rw [hij]; exact hv
          · exact habsent i (hall i hij) k)]
        rfl
      | some v =>
        exact (hm k).2 j v (Nat.zero_le j) hj hv
          (fun i hlt _ => habsent i (hall i (by omega)) k)
  have hcount := hone
  unfold nonNilLocationGroups at hcount
  cases hn : o.LocationOptions with
  | some n =>
    cases hc : o.CoordinateOptions with
    | some c => cases hb : o.BoundOptions <;> simp [hn, hc, hb] at hcount
    | none =>
      cases hb : o.BoundOptions with
      | some b => simp [hn, hc, hb] at hcount
      | none =>
        refine main 2 (by decide) (by decide) (by simp [present, Field, hn]) ?_
        intro i hi hij
        unfold NumField at hi
        interval_cases i
        · exact h0
        · exact h1
        · exact absurd rfl hij
        · simp [present, Field, hc]
        · simp [present, Field, hb]
  | none =>
    cases hc : o.CoordinateOptions with
    | some c =>
      cases hb : o.BoundOptions with
      | some b => simp [hn, hc, hb] at hcount
      | none =>
        refine main 3 (by decide) (by decide) (by simp [present, Field, hc]) ?_
        intro i hi hij
        unfold NumField at hi
        interval_cases i
        · exact h0
        · exact h1
        · simp [present, Field, hn]
        · exact absurd rfl hij
        · simp [present, Field, hb]
    | none =>
      cases hb : o.BoundOptions with
      | some b =>
        refine main 4 (by decide) (by decide) (by simp [present, Field, hb]) ?_
        intro i hi hij
        unfold NumField at hi
        interval_cases i
        · exact h0
        · exact h1
        · simp [present, Field, hn]
        · simp [present, Field, hc]
        · exact absurd rfl hij
      | none => simp [hn, hc, hb] at hcount

theorem single_location_group_map_witness :
    boundOnlyNilMap.GeneralOptions = none ∧ boundOnlyNilMap.LocaleOptions = none ∧
    nonNilLocationGroups boundOnlyNilMap = 1 ∧
    (GetParameters RangeOrder.stored boundOnlyNilMap []).err = none ∧
    ∃ j, 2 ≤ j ∧ j < NumField ∧ present boundOnlyNilMap j = true ∧
      (∀ i, i ≠ j → present boundOnlyNilMap i = false) ∧
      (GetParameters RangeOrder.stored boundOnlyNilMap []).calls = [j] ∧
      (GetParameters RangeOrder.stored boundOnlyNilMap []).params ≠ none ∧
      ∀ k, (GetParameters RangeOrder.stored boundOnlyNilMap []).params.get k =
        (contribution boundOnlyNilMap j).get k :=
  ⟨rfl, rfl, by decide, by decide,
    single_location_group_map RangeOrder.stored boundOnlyNilMap [] rfl rfl (by decide)
      (by decide)⟩

end Yelp
